import Mathlib

/-!
Formal model of the spatial-decomposition and coordinate-mapping engine of
`analyze_dxf.py` (DXF fire-safety analyzer, v8).

Numeric values are modelled as rationals (`ℚ`); Python `int()` truncation is
modelled by `truncQ`; numpy's linearly interpolated `percentile` is modelled
by `percentile`.  Entity streams are modelled by the inductive type `Entity`,
where an `insert` carries the list of entities produced by ezdxf's
`virtual_entities()` (block content with the insert transform already
applied), which is how the script consumes block references.
-/

namespace AnalyzeDxf

/-- A world-coordinate rectangle `(xmin, xmax, ymin, ymax)`. -/
structure Bounds where
  xmin : ℚ
  xmax : ℚ
  ymin : ℚ
  ymax : ℚ
deriving DecidableEq

/-- Python `int()` applied to a rational: truncation toward zero. -/
def truncQ (q : ℚ) : ℤ :=
  if q < 0 then ⌈q⌉ else ⌊q⌋

/-- Smallest natural `n` with `m ≤ n * n` (ceiling of the square root of `m`). -/
def natCeilSqrt (m : ℕ) : ℕ :=
  if Nat.sqrt m * Nat.sqrt m = m then Nat.sqrt m else Nat.sqrt m + 1

/-- `int(np.ceil(np.sqrt(q)))` for a nonnegative rational `q`: since
`⌈√q⌉ = ⌈√⌈q⌉⌉` for `q ≥ 0`, it is computed on the integer ceiling. -/
def ceilSqrtQ (q : ℚ) : ℕ :=
  natCeilSqrt (Int.toNat ⌈q⌉)

/-- `ax.min()` (numpy) on a nonempty list; `0` on the empty list (the script
never takes the minimum of an empty array). -/
def listMin : List ℚ → ℚ
  | [] => 0
  | x :: l => l.foldl min x

/-- `ax.max()` (numpy) on a nonempty list; `0` on the empty list. -/
def listMax : List ℚ → ℚ
  | [] => 0
  | x :: l => l.foldl max x

/-- Ascending sort, as numpy does internally for `np.percentile`. -/
def sortQ (xs : List ℚ) : List ℚ :=
  xs.insertionSort (· ≤ ·)

/-- Linear interpolation into a (sorted) list at fractional index `h`:
`s[⌊h⌋] + (h − ⌊h⌋) · (s[⌈h⌉] − s[⌊h⌋])`, numpy's default interpolation. -/
def interpAt (s : List ℚ) (h : ℚ) : ℚ :=
  let lo := Int.toNat ⌊h⌋
  let hi := Int.toNat ⌈h⌉
  let a := s.getD lo 0
  let b := s.getD hi 0
  a + (h - (lo : ℚ)) * (b - a)

/-- `np.percentile(xs, q)` with linear interpolation: interpolate the sorted
data at fractional index `(n − 1) · q / 100`. -/
def percentile (xs : List ℚ) (q : ℚ) : ℚ :=
  interpAt (sortQ xs) (((xs.length : ℚ) - 1) * q / 100)

/-- `CoordinateTransformer`: maps DXF world coordinates to PNG pixel
coordinates (fields as in `__init__`). -/
structure CoordinateTransformer where
  world_xmin : ℚ
  world_xmax : ℚ
  world_ymin : ℚ
  world_ymax : ℚ
  img_width : ℚ
  img_height : ℚ
  scale_x : ℚ
  scale_y : ℚ
deriving DecidableEq

/-- `CoordinateTransformer.__init__(world_bounds, image_size)`: scale factors
are `image / world` span, defaulting to `1` on a degenerate axis. -/
def CoordinateTransformer.ofBounds (wb : Bounds) (w h : ℕ) : CoordinateTransformer :=
  let world_width := wb.xmax - wb.xmin
  let world_height := wb.ymax - wb.ymin
  { world_xmin := wb.xmin
    world_xmax := wb.xmax
    world_ymin := wb.ymin
    world_ymax := wb.ymax
    img_width := (w : ℚ)
    img_height := (h : ℚ)
    scale_x := if world_width > 0 then (w : ℚ) / world_width else 1
    scale_y := if world_height > 0 then (h : ℚ) / world_height else 1 }

/-- `world_to_pixel(x, y)`: `px = int((x − xmin)·scale_x)`,
`py = int(img_height − (y − ymin)·scale_y)` (Y flipped). -/
def CoordinateTransformer.world_to_pixel (t : CoordinateTransformer) (x y : ℚ) : ℤ × ℤ :=
  (truncQ ((x - t.world_xmin) * t.scale_x),
   truncQ (t.img_height - (y - t.world_ymin) * t.scale_y))

/-- A modelspace entity.  `insert` carries the block name, the insertion
point, and the list of entities yielded by `virtual_entities()` (one level of
block content, transforms applied). -/
inductive Entity where
  | line (x1 y1 x2 y2 : ℚ)
  | lwpolyline (pts : List (ℚ × ℚ)) (closed : Bool)
  | polyline (pts : List (ℚ × ℚ))
  | circle (cx cy r : ℚ)
  | arc (cx cy r sa ea : ℚ)
  | point (x y : ℚ)
  | ellipse (cx cy : ℚ)
  | spline (pts : List (ℚ × ℚ))
  | text (pos : ℚ × ℚ) (content : String) (height : ℚ)
  | mtext (pos : ℚ × ℚ) (content : String)
  | insert (name : String) (pos : ℚ × ℚ) (sub : List Entity)

/-- `e.dxftype()`. -/
def Entity.dxftype : Entity → String
  | .line _ _ _ _ => "LINE"
  | .lwpolyline _ _ => "LWPOLYLINE"
  | .polyline _ => "POLYLINE"
  | .circle _ _ _ => "CIRCLE"
  | .arc _ _ _ _ _ => "ARC"
  | .point _ _ => "POINT"
  | .ellipse _ _ => "ELLIPSE"
  | .spline _ => "SPLINE"
  | .text _ _ _ => "TEXT"
  | .mtext _ _ => "MTEXT"
  | .insert _ _ _ => "INSERT"

/-- The inner `collect(e)` of `collect_all_points`: representative world
points of one non-INSERT entity (endpoints, vertices, centers; SPLINE, TEXT,
MTEXT and INSERT contribute nothing there). -/
def collectPointsOf : Entity → List (ℚ × ℚ)
  | .line x1 y1 x2 y2 => [(x1, y1), (x2, y2)]
  | .lwpolyline pts _ => pts
  | .polyline pts => pts
  | .circle cx cy _ => [(cx, cy)]
  | .arc cx cy _ _ _ => [(cx, cy)]
  | .point x y => [(x, y)]
  | .ellipse cx cy => [(cx, cy)]
  | _ => []

/-- `collect_all_points(msp)`: a top-level INSERT is expanded one level via
`virtual_entities()` and each virtual entity goes through `collect`; every
other entity goes through `collect` directly.  The two parallel coordinate
lists of the script are modelled as one list of `(x, y)` pairs (they are
always appended in lockstep). -/
def collect_all_points (msp : List Entity) : List (ℚ × ℚ) :=
  msp.flatMap fun e =>
    match e with
    | .insert _ _ sub => sub.flatMap collectPointsOf
    | e => collectPointsOf e

/-- `in_bounds(x, y)` of `collect_geometry_batch`. -/
def inBnds (b : Bounds) (x y : ℚ) : Prop :=
  b.xmin ≤ x ∧ x ≤ b.xmax ∧ b.ymin ≤ y ∧ y ≤ b.ymax

instance (b : Bounds) (x y : ℚ) : Decidable (inBnds b x y) := by
  unfold inBnds
  infer_instance

/-- The bounds filter of `add_line`: keep a segment when there are no bounds
or either endpoint is inside them. -/
def segKeep (ob : Option Bounds) (x1 y1 x2 y2 : ℚ) : Bool :=
  match ob with
  | none => true
  | some b => decide (inBnds b x1 y1 ∨ inBnds b x2 y2)

/-- `add_line`: a kept segment contributes its two endpoints followed by a
`none` pen-up separator. -/
def addLine (ob : Option Bounds) (x1 y1 x2 y2 : ℚ) : List (Option (ℚ × ℚ)) :=
  if segKeep ob x1 y1 x2 y2 then [some (x1, y1), some (x2, y2), none] else []

/-- Consecutive-vertex segments of a vertex list
(`for i in range(len(pts) - 1): add_line(pts[i], pts[i+1])`). -/
def pairSegs (ob : Option Bounds) : List (ℚ × ℚ) → List (Option (ℚ × ℚ))
  | p1 :: p2 :: rest => addLine ob p1.1 p1.2 p2.1 p2.2 ++ pairSegs ob (p2 :: rest)
  | _ => []

/-- Line-run contribution of `process_entity` for one entity. -/
def entitySegs (ob : Option Bounds) : Entity → List (Option (ℚ × ℚ))
  | .line x1 y1 x2 y2 => addLine ob x1 y1 x2 y2
  | .lwpolyline pts closed =>
      if 2 ≤ pts.length then
        pairSegs ob pts ++
          (if closed then
            addLine ob (pts.getLastD (0, 0)).1 (pts.getLastD (0, 0)).2
              (pts.headD (0, 0)).1 (pts.headD (0, 0)).2
          else [])
      else []
  | .polyline pts => pairSegs ob pts
  | .spline pts => pairSegs ob pts
  | _ => []

/-- Circle contribution of `process_entity` for one entity. -/
def entityCircles (ob : Option Bounds) : Entity → List (ℚ × ℚ × ℚ)
  | .circle cx cy r =>
      if (match ob with | none => true | some b => decide (inBnds b cx cy)) then
        [(cx, cy, r)]
      else []
  | _ => []

/-- Arc contribution of `process_entity` for one entity. -/
def entityArcs (ob : Option Bounds) : Entity → List (ℚ × ℚ × ℚ × ℚ × ℚ)
  | .arc cx cy r sa ea =>
      if (match ob with | none => true | some b => decide (inBnds b cx cy)) then
        [(cx, cy, r, sa, ea)]
      else []
  | _ => []

/-- Top-level dispatch of `collect_geometry_batch` for line runs: an INSERT
is expanded via `virtual_entities()`, a nested INSERT one further level
(deeper inserts fall through `process_entity`, which ignores them); TEXT,
MTEXT (and attribute entities) are skipped. -/
def topSegs (ob : Option Bounds) : Entity → List (Option (ℚ × ℚ))
  | .insert _ _ sub =>
      sub.flatMap fun ve =>
        match ve with
        | .insert _ _ sub2 => sub2.flatMap (entitySegs ob)
        | ve => entitySegs ob ve
  | .text _ _ _ => []
  | .mtext _ _ => []
  | e => entitySegs ob e

/-- Top-level dispatch of `collect_geometry_batch` for circles. -/
def topCircles (ob : Option Bounds) : Entity → List (ℚ × ℚ × ℚ)
  | .insert _ _ sub =>
      sub.flatMap fun ve =>
        match ve with
        | .insert _ _ sub2 => sub2.flatMap (entityCircles ob)
        | ve => entityCircles ob ve
  | .text _ _ _ => []
  | .mtext _ _ => []
  | e => entityCircles ob e

/-- Top-level dispatch of `collect_geometry_batch` for arcs. -/
def topArcs (ob : Option Bounds) : Entity → List (ℚ × ℚ × ℚ × ℚ × ℚ)
  | .insert _ _ sub =>
      sub.flatMap fun ve =>
        match ve with
        | .insert _ _ sub2 => sub2.flatMap (entityArcs ob)
        | ve => entityArcs ob ve
  | .text _ _ _ => []
  | .mtext _ _ => []
  | e => entityArcs ob e

/-- The dict returned by `collect_geometry_batch`.  The parallel
`lines_x`/`lines_y` arrays are the two projections of the segment list. -/
structure GeomBatch where
  lines_x : List (Option ℚ)
  lines_y : List (Option ℚ)
  circles : List (ℚ × ℚ × ℚ)
  arcs : List (ℚ × ℚ × ℚ × ℚ × ℚ)
  line_count : ℕ
  circle_count : ℕ
  arc_count : ℕ
deriving DecidableEq

/-- `collect_geometry_batch(msp, bounds)`. -/
def collect_geometry_batch (msp : List Entity) (ob : Option Bounds) : GeomBatch :=
  let segs := msp.flatMap (topSegs ob)
  let cs := msp.flatMap (topCircles ob)
  let ars := msp.flatMap (topArcs ob)
  { lines_x := segs.map (Option.map Prod.fst)
    lines_y := segs.map (Option.map Prod.snd)
    circles := cs
    arcs := ars
    line_count := segs.countP (fun o => o.isNone)
    circle_count := cs.length
    arc_count := ars.length }

/-- The per-axis candidate bounds of `calculate_smart_bounds`: the 1st/99th
percentiles, replaced by the Tukey-like `[q10 − 2·iqr, q90 + 2·iqr]` fence
when the percentile span is under 1% of the full span. -/
def axisCandidates (vs : List ℚ) : ℚ × ℚ :=
  let pmin := percentile vs 1
  let pmax := percentile vs 99
  let span := pmax - pmin
  let fullSpan := listMax vs - listMin vs
  if 0 < fullSpan ∧ span < fullSpan * (1 / 100) then
    let q1 := percentile vs 10
    let q3 := percentile vs 90
    let iqr := q3 - q1
    (q1 - 2 * iqr, q3 + 2 * iqr)
  else
    (pmin, pmax)

/-- `calculate_smart_bounds(all_x, all_y, margin)`: default `(0, 100, 0, 100)`
on empty input, otherwise per-axis candidates padded by
`max(span · margin, 1)`. -/
def calculate_smart_bounds (all_x all_y : List ℚ) (margin : ℚ) : Bounds :=
  if all_x.length = 0 ∨ all_y.length = 0 then ⟨0, 100, 0, 100⟩
  else
    let cx := axisCandidates all_x
    let cy := axisCandidates all_y
    let xpad := max ((cx.2 - cx.1) * margin) 1
    let ypad := max ((cy.2 - cy.1) * margin) 1
    ⟨cx.1 - xpad, cx.2 + xpad, cy.1 - ypad, cy.2 + ypad⟩

/-- Entity-type counts as an association list, with `t → 0` for absent keys. -/
def lookupCount (counts : List (String × ℕ)) (t : String) : ℕ :=
  (counts.lookup t).getD 0

/-- `total = sum(entity_counts.values())`. -/
def totalCount (counts : List (String × ℕ)) : ℕ :=
  (counts.map Prod.snd).sum

/-- The geometry types of `detect_flattened_dxf`. -/
def geometryTypes : List String :=
  ["LINE", "LWPOLYLINE", "POLYLINE", "ARC", "CIRCLE", "SPLINE"]

/-- Layers other than `0` / `Defpoints` / `DEFPOINTS`. -/
def meaningfulLayers (layers : List String) : List String :=
  layers.filter fun l => decide (l ≠ "0" ∧ l ≠ "Defpoints" ∧ l ≠ "DEFPOINTS")

/-- `insert_ratio` of `detect_flattened_dxf` (0 when there are no entities). -/
def insertShare (counts : List (String × ℕ)) : ℚ :=
  if 0 < totalCount counts then
    (lookupCount counts ("INSERT") : ℚ) / (totalCount counts : ℚ)
  else 0

/-- `text_ratio` of `detect_flattened_dxf` (TEXT plus MTEXT). -/
def textShare (counts : List (String × ℕ)) : ℚ :=
  if 0 < totalCount counts then
    ((lookupCount counts ("TEXT") + lookupCount counts ("MTEXT") : ℕ) : ℚ) /
      (totalCount counts : ℚ)
  else 0

/-- `geometry_ratio` of `detect_flattened_dxf`. -/
def geometryShare (counts : List (String × ℕ)) : ℚ :=
  if 0 < totalCount counts then
    (((geometryTypes.map (lookupCount counts)).sum : ℕ) : ℚ) / (totalCount counts : ℚ)
  else 0

/-- `detect_flattened_dxf(msp, entity_counts, layers)`: the conjunction of the
four flattened indicators (the `is_large` tally is only logged). -/
def detect_flattened_dxf (counts : List (String × ℕ)) (layers : List String) : Bool :=
  decide (insertShare counts < 1 / 100) &&
  decide (textShare counts < 1 / 1000) &&
  decide (geometryShare counts > 95 / 100) &&
  decide ((meaningfulLayers layers).length < 5)

/-- `bin_edges[i]` of the 200-bin histogram over `[mn, mx]`. -/
def binEdge (mn mx : ℚ) (nb i : ℕ) : ℚ :=
  mn + (i : ℚ) * (mx - mn) / (nb : ℚ)

/-- State of the left-to-right gap scan of `detect_sections_by_x_histogram`. -/
structure ScanState where
  secs : List (ℚ × ℚ)
  in_sec : Bool
  sec_start : ℚ
  gap : ℕ

/-- `detect_sections_by_x_histogram(all_x, min_gap_ratio, min_points_per_section)`.
Fewer than `min_points` coordinates return `[]` immediately.  Otherwise a
200-bin histogram is scanned: bins above the threshold (5th percentile of the
nonzero bin counts, else 1) extend a section, and `min_gap_bins` consecutive
low bins close it at the gap's start; sections with fewer than `min_points`
points in `[xmin, xmax]` are dropped.  numpy widens a zero-width data range
to `[mn − 1/2, mx + 1/2]`. -/
def detect_sections_by_x_histogram (all_x : List ℚ) (min_gap_frac : ℚ)
    (min_points : ℕ) : List (ℚ × ℚ) :=
  if all_x.length < min_points then []
  else
    let num_bins : ℕ := 200
    let mn0 := listMin all_x
    let mx0 := listMax all_x
    let mn := if mn0 = mx0 then mn0 - 1 / 2 else mn0
    let mx := if mn0 = mx0 then mx0 + 1 / 2 else mx0
    let hist := (List.range num_bins).map fun i =>
      all_x.countP fun x =>
        decide (binEdge mn mx num_bins i ≤ x ∧
          (x < binEdge mn mx num_bins (i + 1) ∨
            (i + 1 = num_bins ∧ x ≤ binEdge mn mx num_bins (i + 1))))
    let nonzero := (hist.filter (fun c => decide (0 < c))).map (fun c => (c : ℚ))
    let threshold := if 0 < nonzero.length then percentile nonzero 5 else 1
    let min_gap_bins := (truncQ (min_gap_frac * (num_bins : ℚ))).toNat
    let step := fun (st : ScanState) (i : ℕ) =>
      let c := hist.getD i 0
      if (c : ℚ) > threshold then
        if st.in_sec then { st with gap := 0 }
        else { st with in_sec := true, sec_start := binEdge mn mx num_bins i, gap := 0 }
      else if st.in_sec then
        let g := st.gap + 1
        if min_gap_bins ≤ g then
          { secs := st.secs ++ [(st.sec_start, binEdge mn mx num_bins (i + 1 - g))]
            in_sec := false
            sec_start := st.sec_start
            gap := g }
        else { st with gap := g }
      else st
    let fin := (List.range num_bins).foldl step ⟨[], false, 0, 0⟩
    let sections :=
      if fin.in_sec then fin.secs ++ [(fin.sec_start, binEdge mn mx num_bins num_bins)]
      else fin.secs
    sections.filter fun s =>
      decide (min_points ≤ all_x.countP (fun x => decide (s.1 ≤ x ∧ x ≤ s.2)))

/-- The section list used by `render_dxf_sections`: the detector's output with
its defaults, falling back to the single span
`(percentile(all_x, 1), percentile(all_x, 99))` when no section was found. -/
def sectionsWithFallback (all_x : List ℚ) : List (ℚ × ℚ) :=
  let sections := detect_sections_by_x_histogram all_x (1 / 10) 1000
  if sections.length = 0 then [(percentile all_x 1, percentile all_x 99)]
  else sections

/-- `safe_text(s)`: drop characters above the BMP and control characters
other than tab/LF/CR (Lean `Char` cannot hold lone surrogates, and UTF-8
encoding never fails, so those source checks are vacuous here). -/
def safe_text (s : String) : String :=
  String.mk (s.data.filter fun ch =>
    decide (ch.toNat ≤ 0xFFFF ∧
      (32 ≤ ch.toNat ∨ ch.toNat = 9 ∨ ch.toNat = 10 ∨ ch.toNat = 13)))

/-- One record emitted by `extract_zone_entities`: the `type` tag, the text
content or block name, world position, projected pixel position, and (TEXT
only) the height attribute. -/
structure AnnRecord where
  kind : String
  payload : String
  world_pos : ℚ × ℚ
  pixel_pos : ℤ × ℤ
  height : Option ℚ
deriving DecidableEq

/-- The inclusive zone-containment test
`xmin <= pos.x <= xmax and ymin <= pos.y <= ymax`. -/
def inZone (zb : Bounds) (p : ℚ × ℚ) : Prop :=
  zb.xmin ≤ p.1 ∧ p.1 ≤ zb.xmax ∧ zb.ymin ≤ p.2 ∧ p.2 ≤ zb.ymax

instance (zb : Bounds) (p : ℚ × ℚ) : Decidable (inZone zb p) := by
  unfold inZone
  infer_instance

/-- The per-entity body of the `extract_zone_entities` loop: TEXT, MTEXT and
INSERT entities whose insertion point lies (inclusively) inside the zone
yield a record with the pixel position computed by the zone's transformer;
every other case yields nothing. -/
def recordOf (zb : Bounds) (t : CoordinateTransformer) : Entity → Option AnnRecord
  | .text pos s h =>
      if inZone zb pos then
        some ⟨"TEXT", safe_text s, pos, t.world_to_pixel pos.1 pos.2, some h⟩
      else none
  | .mtext pos s =>
      if inZone zb pos then
        some ⟨"MTEXT", safe_text s, pos, t.world_to_pixel pos.1 pos.2, none⟩
      else none
  | .insert name pos _ =>
      if inZone zb pos then
        some ⟨"BLOCK", name, pos, t.world_to_pixel pos.1 pos.2, none⟩
      else none
  | _ => none

/-- `extract_zone_entities(msp, zone_bounds, transformer)`: the records of
the contained annotation-like entities; entities outside the zone and other
entity types are skipped. -/
def extract_zone_entities (msp : List Entity) (zb : Bounds)
    (t : CoordinateTransformer) : List AnnRecord :=
  msp.filterMap (recordOf zb t)

/-- One zone record of `calculate_zones_with_overlap`. -/
structure Zone where
  id : String
  xmin : ℚ
  xmax : ℚ
  ymin : ℚ
  ymax : ℚ
  row : ℕ
  col : ℕ
deriving DecidableEq

/-- `cols = max(1, int(np.ceil(np.sqrt(num_zones * aspect))))`. -/
def zoneCols (b : Bounds) (num_zones : ℕ) : ℕ :=
  max 1 (ceilSqrtQ ((num_zones : ℚ) * ((b.xmax - b.xmin) / (b.ymax - b.ymin))))

/-- `rows = max(1, int(np.ceil(num_zones / cols)))`. -/
def zoneRows (b : Bounds) (num_zones : ℕ) : ℕ :=
  max 1 (Int.toNat ⌈(num_zones : ℚ) / (zoneCols b num_zones : ℚ)⌉)

/-- `zone_width = width / cols`. -/
def zoneWidth (b : Bounds) (num_zones : ℕ) : ℚ :=
  (b.xmax - b.xmin) / (zoneCols b num_zones : ℚ)

/-- `zone_height = height / rows`. -/
def zoneHeight (b : Bounds) (num_zones : ℕ) : ℚ :=
  (b.ymax - b.ymin) / (zoneRows b num_zones : ℚ)

/-- The zone for grid position `(row, col)`: the base cell grown by the
overlap margin on every side, clamped to the global bounds grown by the same
margin. -/
def zoneAt (b : Bounds) (num_zones : ℕ) (overlap_percent : ℚ) (row col : ℕ) : Zone :=
  let zw := zoneWidth b num_zones
  let zh := zoneHeight b num_zones
  let ox := zw * overlap_percent
  let oy := zh * overlap_percent
  { id := "zone_" ++ toString row ++ "_" ++ toString col
    xmin := max (b.xmin + (col : ℚ) * zw - ox) (b.xmin - ox)
    xmax := min (b.xmin + ((col : ℚ) + 1) * zw + ox) (b.xmax + ox)
    ymin := max (b.ymin + (row : ℚ) * zh - oy) (b.ymin - oy)
    ymax := min (b.ymin + ((row : ℚ) + 1) * zh + oy) (b.ymax + oy)
    row := row
    col := col }

/-- `calculate_zones_with_overlap(bounds, num_zones, overlap_percent)`:
degenerate bounds yield the single zone `zone_0_0`; otherwise the row-major
grid of overlapping zones. -/
def calculate_zones_with_overlap (b : Bounds) (num_zones : ℕ)
    (overlap_percent : ℚ) : List Zone :=
  if b.xmax - b.xmin ≤ 0 ∨ b.ymax - b.ymin ≤ 0 then
    [⟨"zone_0_0", b.xmin, b.xmax, b.ymin, b.ymax, 0, 0⟩]
  else
    (List.range (zoneRows b num_zones)).flatMap fun row =>
      (List.range (zoneCols b num_zones)).map fun col =>
        zoneAt b num_zones overlap_percent row col

/-- The two rendering modes of `main`. -/
inductive SplitMode where
  | sections
  | grid
deriving DecidableEq

/-- `use_sections = args.sections or (is_flattened and total_entities > 100000)`
(line 1013 of the source). -/
def useSections (sections_flag is_flattened : Bool) (total_entities : ℕ) : Bool :=
  sections_flag || (is_flattened && decide (100000 < total_entities))

/-- The mode `main` actually runs: SECTIONS when `use_sections`, otherwise
the hybrid zone-GRID path. -/
def mainSplitMode (sections_flag is_flattened : Bool) (total_entities : ℕ) : SplitMode :=
  if useSections sections_flag is_flattened total_entities then .sections else .grid

/-- Modelled from the spec (§4.3), for comparison with `mainSplitMode`:
"splitMode = SECTIONS if width/height of the estimated bounds exceeds a fixed
aspect threshold (5:1); otherwise GRID." -/
def splitModeSpec (b : Bounds) : SplitMode :=
  if (b.xmax - b.xmin) / (b.ymax - b.ymin) > 5 then .sections else .grid

/-- Block content used by the C4 counterexample drawing. -/
def demoSub : List Entity :=
  [Entity.point 5 7, Entity.circle 5 7 2]

/-- A concrete flattened drawing: 100 lines and one INSERT whose block
content is `demoSub`. -/
def demoMsp : List Entity :=
  List.replicate 100 (Entity.line 0 0 1 1) ++ [Entity.insert ("B1") (0, 0) demoSub]

/-- Top-level entity-type counts of `demoMsp`, as `main` computes them. -/
def demoCounts : List (String × ℕ) :=
  [("LINE", 100), ("INSERT", 1)]

/-! ### Helper lemmas -/

theorem truncQ_mono {a b : ℚ} (hab : a ≤ b) : truncQ a ≤ truncQ b := by
  unfold truncQ
  by_cases hb : b < 0
  · have ha : a < 0 := lt_of_le_of_lt hab hb
    rw [if_pos ha, if_pos hb]
    exact Int.ceil_le_ceil hab
  · by_cases ha : a < 0
    · rw [if_pos ha, if_neg hb]
      have h1 : ⌈a⌉ ≤ 0 := Int.ceil_le.mpr (by push_cast; linarith)
      have h2 : (0 : ℤ) ≤ ⌊b⌋ := Int.floor_nonneg.mpr (not_lt.mp hb)
      omega
    · rw [if_neg ha, if_neg hb]
      exact Int.floor_le_floor hab

theorem sortQ_sorted (xs : List ℚ) : (sortQ xs).Sorted (· ≤ ·) :=
  List.sorted_insertionSort _ xs

theorem sortQ_length (xs : List ℚ) : (sortQ xs).length = xs.length :=
  (List.perm_insertionSort _ xs).length_eq

theorem sortQ_mem {xs : List ℚ} {a : ℚ} (h : a ∈ sortQ xs) : a ∈ xs :=
  (List.perm_insertionSort _ xs).mem_iff.mp h

theorem sorted_getD_mono {s : List ℚ} (hs : s.Sorted (· ≤ ·)) {i j : ℕ}
    (hij : i ≤ j) (hj : j < s.length) : s.getD i 0 ≤ s.getD j 0 := by
  have hi : i < s.length := lt_of_le_of_lt hij hj
  rw [List.getD_eq_getElem s 0 hi, List.getD_eq_getElem s 0 hj]
  exact hs.rel_get_of_le (a := ⟨i, hi⟩) (b := ⟨j, hj⟩) hij

theorem getD_mem {s : List ℚ} {i : ℕ} (hi : i < s.length) : s.getD i 0 ∈ s := by
  rw [List.getD_eq_getElem s 0 hi]
  exact List.get_mem s i hi

theorem foldl_min_le (l : List ℚ) (a : ℚ) :
    l.foldl min a ≤ a ∧ ∀ x ∈ l, l.foldl min a ≤ x := by
  induction l generalizing a with
  | nil => exact ⟨le_rfl, by simp⟩
  | cons y l ih =>
    obtain ⟨h1, h2⟩ := ih (min a y)
    simp only [List.foldl_cons]
    refine ⟨le_trans h1 (min_le_left a y), ?_⟩
    intro x hx
    rcases List.mem_cons.mp hx with rfl | hx
    · exact le_trans h1 (min_le_right a x)
    · exact h2 x hx

theorem le_foldl_max (l : List ℚ) (a : ℚ) :
    a ≤ l.foldl max a ∧ ∀ x ∈ l, x ≤ l.foldl max a := by
  induction l generalizing a with
  | nil => exact ⟨le_rfl, by simp⟩
  | cons y l ih =>
    obtain ⟨h1, h2⟩ := ih (max a y)
    simp only [List.foldl_cons]
    refine ⟨le_trans (le_max_left a y) h1, ?_⟩
    intro x hx
    rcases List.mem_cons.mp hx with rfl | hx
    · exact le_trans (le_max_right a x) h1
    · exact h2 x hx

theorem listMin_le {xs : List ℚ} {x : ℚ} (hx : x ∈ xs) : listMin xs ≤ x := by
  cases xs with
  | nil => cases hx
  | cons y l =>
    rcases List.mem_cons.mp hx with rfl | hx
    · exact (foldl_min_le l x).1
    · exact (foldl_min_le l y).2 x hx

theorem le_listMax {xs : List ℚ} {x : ℚ} (hx : x ∈ xs) : x ≤ listMax xs := by
  cases xs with
  | nil => cases hx
  | cons y l =>
    rcases List.mem_cons.mp hx with rfl | hx
    · exact (le_foldl_max l x).1
    · exact (le_foldl_max l y).2 x hx

theorem interpAt_def (s : List ℚ) (h : ℚ) :
    interpAt s h =
      s.getD (Int.toNat ⌊h⌋) 0 +
        (h - ((Int.toNat ⌊h⌋ : ℕ) : ℚ)) *
          (s.getD (Int.toNat ⌈h⌉) 0 - s.getD (Int.toNat ⌊h⌋) 0) := rfl

theorem interpAt_between (s : List ℚ) (hs : s.Sorted (· ≤ ·)) {h : ℚ} (h0 : 0 ≤ h)
    (hn : h ≤ (s.length : ℚ) - 1) :
    s.getD (Int.toNat ⌊h⌋) 0 ≤ interpAt s h ∧
      interpAt s h ≤ s.getD (Int.toNat ⌈h⌉) 0 := by
  have hfl0 : (0 : ℤ) ≤ ⌊h⌋ := Int.le_floor.mpr (by push_cast; linarith)
  have hlen1 : 1 ≤ s.length := by
    have h1 : (1 : ℚ) ≤ (s.length : ℚ) := by linarith
    exact_mod_cast h1
  have hceil : ⌈h⌉ ≤ (s.length : ℤ) - 1 := Int.ceil_le.mpr (by push_cast; linarith)
  have hflceil : ⌊h⌋ ≤ ⌈h⌉ := by
    have h1 : ((⌊h⌋ : ℤ) : ℚ) ≤ ((⌈h⌉ : ℤ) : ℚ) :=
      le_trans (Int.floor_le h) (Int.le_ceil h)
    exact_mod_cast h1
  have hhilt : Int.toNat ⌈h⌉ < s.length := by omega
  have hlohi : Int.toNat ⌊h⌋ ≤ Int.toNat ⌈h⌉ := by omega
  have hab : s.getD (Int.toNat ⌊h⌋) 0 ≤ s.getD (Int.toNat ⌈h⌉) 0 :=
    sorted_getD_mono hs hlohi hhilt
  have hcast : ((Int.toNat ⌊h⌋ : ℕ) : ℚ) = ((⌊h⌋ : ℤ) : ℚ) := by
    exact_mod_cast congrArg (fun z : ℤ => (z : ℚ)) (Int.toNat_of_nonneg hfl0)
  have ht0 : 0 ≤ h - ((Int.toNat ⌊h⌋ : ℕ) : ℚ) := by
    rw [hcast]
    linarith [Int.floor_le h]
  have ht1 : h - ((Int.toNat ⌊h⌋ : ℕ) : ℚ) ≤ 1 := by
    rw [hcast]
    linarith [Int.lt_floor_add_one h]
  rw [interpAt_def]
  constructor
  · nlinarith [mul_nonneg ht0 (sub_nonneg.mpr hab)]
  · nlinarith [mul_nonneg (by linarith : (0 : ℚ) ≤ 1 - (h - ((Int.toNat ⌊h⌋ : ℕ) : ℚ)))
      (sub_nonneg.mpr hab)]

theorem interpAt_mono (s : List ℚ) (hs : s.Sorted (· ≤ ·)) {h h' : ℚ} (h0 : 0 ≤ h)
    (hle : h ≤ h') (hn : h' ≤ (s.length : ℚ) - 1) : interpAt s h ≤ interpAt s h' := by
  have h0' : 0 ≤ h' := le_trans h0 hle
  have hnh : h ≤ (s.length : ℚ) - 1 := le_trans hle hn
  have hfl : ⌊h⌋ ≤ ⌊h'⌋ := Int.floor_le_floor hle
  have hfl0 : (0 : ℤ) ≤ ⌊h⌋ := Int.le_floor.mpr (by push_cast; linarith)
  have hlen1 : 1 ≤ s.length := by
    have h1 : (1 : ℚ) ≤ (s.length : ℚ) := by linarith
    exact_mod_cast h1
  rcases eq_or_lt_of_le hfl with heq | hlt
  · by_cases hch : ⌈h⌉ = ⌈h'⌉
    · have hceil : ⌈h'⌉ ≤ (s.length : ℤ) - 1 := Int.ceil_le.mpr (by push_cast; linarith)
      have hflceil : ⌊h'⌋ ≤ ⌈h'⌉ := by
        have h1 : ((⌊h'⌋ : ℤ) : ℚ) ≤ ((⌈h'⌉ : ℤ) : ℚ) :=
          le_trans (Int.floor_le h') (Int.le_ceil h')
        exact_mod_cast h1
      have hab : s.getD (Int.toNat ⌊h'⌋) 0 ≤ s.getD (Int.toNat ⌈h'⌉) 0 :=
        sorted_getD_mono hs (by omega) (by omega)
      rw [interpAt_def, interpAt_def, heq, hch]
      have hmul := mul_nonneg (by linarith : (0 : ℚ) ≤ h' - h) (sub_nonneg.mpr hab)
      nlinarith
    · have hm : h = ((⌊h⌋ : ℤ) : ℚ) := by
        by_contra hne
        have hgt : ((⌊h⌋ : ℤ) : ℚ) < h := lt_of_le_of_ne (Int.floor_le h) (Ne.symm hne)
        have hgt' : ((⌊h'⌋ : ℤ) : ℚ) < h' := by
          rw [← heq]
          linarith
        have hc1 : ⌈h⌉ = ⌊h⌋ + 1 := by
          rw [Int.ceil_eq_iff]
          constructor
          · push_cast
            linarith
          · push_cast
            linarith [Int.lt_floor_add_one h]
        have hc2 : ⌈h'⌉ = ⌊h'⌋ + 1 := by
          rw [Int.ceil_eq_iff]
          constructor
          · push_cast
            linarith
          · push_cast
            linarith [Int.lt_floor_add_one h']
        exact hch (by rw [hc1, hc2, heq])
      have hzero : h - ((Int.toNat ⌊h⌋ : ℕ) : ℚ) = 0 := by
        have hcast : ((Int.toNat ⌊h⌋ : ℕ) : ℚ) = ((⌊h⌋ : ℤ) : ℚ) := by
          exact_mod_cast congrArg (fun z : ℤ => (z : ℚ)) (Int.toNat_of_nonneg hfl0)
        rw [hcast, ← hm]
        ring
      have hval : interpAt s h = s.getD (Int.toNat ⌊h⌋) 0 := by
        rw [interpAt_def, hzero]
        ring
      rw [hval, heq]
      exact (interpAt_between s hs h0' hn).1
  · have hup := (interpAt_between s hs h0 hnh).2
    have hlow := (interpAt_between s hs h0' hn).1
    have hmid : s.getD (Int.toNat ⌈h⌉) 0 ≤ s.getD (Int.toNat ⌊h'⌋) 0 := by
      apply sorted_getD_mono hs
      · have h1 : ⌈h⌉ ≤ ⌊h⌋ + 1 := Int.ceil_le_floor_add_one h
        omega
      · have h2 : ((⌊h'⌋ : ℤ) : ℚ) ≤ (s.length : ℚ) - 1 := le_trans (Int.floor_le h') hn
        have h3 : ⌊h'⌋ ≤ (s.length : ℤ) - 1 := by exact_mod_cast h2
        omega
    exact le_trans hup (le_trans hmid hlow)

theorem percentile_mono (xs : List ℚ) (hne : xs ≠ []) {q q' : ℚ} (h0 : 0 ≤ q)
    (hqq : q ≤ q') (h100 : q' ≤ 100) : percentile xs q ≤ percentile xs q' := by
  unfold percentile
  have hlen : 1 ≤ xs.length := List.length_pos.mpr hne
  have hlen' : (1 : ℚ) ≤ (xs.length : ℚ) := by exact_mod_cast hlen
  have hfac : (0 : ℚ) ≤ (xs.length : ℚ) - 1 := by linarith
  apply interpAt_mono _ (sortQ_sorted xs)
  · exact div_nonneg (mul_nonneg hfac h0) (by norm_num)
  · exact (div_le_div_iff_of_pos_right (by norm_num : (0 : ℚ) < 100)).mpr
      (mul_le_mul_of_nonneg_left hqq hfac)
  · rw [sortQ_length, div_le_iff₀ (by norm_num : (0 : ℚ) < 100)]
    nlinarith

theorem percentile_between (xs : List ℚ) (hne : xs ≠ []) {q : ℚ} (h0 : 0 ≤ q)
    (h100 : q ≤ 100) :
    listMin xs ≤ percentile xs q ∧ percentile xs q ≤ listMax xs := by
  unfold percentile
  have hlen : 1 ≤ xs.length := List.length_pos.mpr hne
  have hlen' : (1 : ℚ) ≤ (xs.length : ℚ) := by exact_mod_cast hlen
  have hfac : (0 : ℚ) ≤ (xs.length : ℚ) - 1 := by linarith
  set h : ℚ := ((xs.length : ℚ) - 1) * q / 100 with hdef
  have h0' : 0 ≤ h := div_nonneg (mul_nonneg hfac h0) (by norm_num)
  have hn : h ≤ ((sortQ xs).length : ℚ) - 1 := by
    rw [sortQ_length, hdef, div_le_iff₀ (by norm_num : (0 : ℚ) < 100)]
    nlinarith
  have hb := interpAt_between (sortQ xs) (sortQ_sorted xs) h0' hn
  have hfl0 : (0 : ℤ) ≤ ⌊h⌋ := Int.le_floor.mpr (by push_cast; linarith)
  have hceil : ⌈h⌉ ≤ ((sortQ xs).length : ℤ) - 1 := Int.ceil_le.mpr (by push_cast; linarith)
  have hlen1 : 1 ≤ (sortQ xs).length := by rw [sortQ_length]; exact hlen
  have hhilt : Int.toNat ⌈h⌉ < (sortQ xs).length := by omega
  have hflceil : ⌊h⌋ ≤ ⌈h⌉ := by
    have h1 : ((⌊h⌋ : ℤ) : ℚ) ≤ ((⌈h⌉ : ℤ) : ℚ) :=
      le_trans (Int.floor_le h) (Int.le_ceil h)
    exact_mod_cast h1
  have hlolt : Int.toNat ⌊h⌋ < (sortQ xs).length := by omega
  constructor
  · exact le_trans (listMin_le (sortQ_mem (getD_mem hlolt))) hb.1
  · exact le_trans hb.2 (le_listMax (sortQ_mem (getD_mem hhilt)))

theorem axisCandidates_le (vs : List ℚ) (hne : vs ≠ []) :
    (axisCandidates vs).1 ≤ (axisCandidates vs).2 := by
  have h1 : percentile vs 10 ≤ percentile vs 90 :=
    percentile_mono vs hne (by norm_num) (by norm_num) (by norm_num)
  have h2 : percentile vs 1 ≤ percentile vs 99 :=
    percentile_mono vs hne (by norm_num) (by norm_num) (by norm_num)
  simp only [axisCandidates]
  split
  · simp only
    linarith
  · exact h2

theorem zoneCols_pos (b : Bounds) (nz : ℕ) : 0 < zoneCols b nz :=
  lt_of_lt_of_le one_pos (le_max_left 1 _)

theorem zoneRows_pos (b : Bounds) (nz : ℕ) : 0 < zoneRows b nz :=
  lt_of_lt_of_le one_pos (le_max_left 1 _)

theorem zoneAt_mem {b : Bounds} {nz : ℕ} {op : ℚ} {r c : ℕ}
    (hw : 0 < b.xmax - b.xmin) (hh : 0 < b.ymax - b.ymin)
    (hr : r < zoneRows b nz) (hc : c < zoneCols b nz) :
    zoneAt b nz op r c ∈ calculate_zones_with_overlap b nz op := by
  unfold calculate_zones_with_overlap
  rw [if_neg (by push_neg; constructor <;> linarith)]
  rw [List.mem_flatMap]
  exact ⟨r, List.mem_range.mpr hr, List.mem_map.mpr ⟨c, List.mem_range.mpr hc, rfl⟩⟩

theorem zoneWidth_pos {b : Bounds} (nz : ℕ) (hw : 0 < b.xmax - b.xmin) :
    0 < zoneWidth b nz := by
  unfold zoneWidth
  apply div_pos hw
  exact_mod_cast zoneCols_pos b nz

theorem zoneHeight_pos {b : Bounds} (nz : ℕ) (hh : 0 < b.ymax - b.ymin) :
    0 < zoneHeight b nz := by
  unfold zoneHeight
  apply div_pos hh
  exact_mod_cast zoneRows_pos b nz

theorem zoneCols_mul_width (b : Bounds) (nz : ℕ) :
    ((zoneCols b nz : ℕ) : ℚ) * zoneWidth b nz = b.xmax - b.xmin := by
  unfold zoneWidth
  have h : ((zoneCols b nz : ℕ) : ℚ) ≠ 0 := by
    have := zoneCols_pos b nz
    positivity
  field_simp

theorem zoneRows_mul_height (b : Bounds) (nz : ℕ) :
    ((zoneRows b nz : ℕ) : ℚ) * zoneHeight b nz = b.ymax - b.ymin := by
  unfold zoneHeight
  have h : ((zoneRows b nz : ℕ) : ℚ) ≠ 0 := by
    have := zoneRows_pos b nz
    positivity
  field_simp

theorem zoneCols_sq3 : zoneCols ⟨0, 3, 0, 3⟩ 9 = 3 := by
  have h9 : (9 : ℤ).toNat = 9 := rfl
  simp only [zoneCols, ceilSqrtQ]
  norm_num [h9, natCeilSqrt]

theorem zoneRows_sq3 : zoneRows ⟨0, 3, 0, 3⟩ 9 = 3 := by
  have h3 : (3 : ℤ).toNat = 3 := rfl
  simp only [zoneRows, zoneCols_sq3]
  norm_num [h3]

theorem collect_all_points_append (l1 l2 : List Entity) :
    collect_all_points (l1 ++ l2) = collect_all_points l1 ++ collect_all_points l2 := by
  unfold collect_all_points
  exact List.flatMap_append l1 l2 _

/-! ### Claim theorems -/

/-- Claim C1, counterexample.  The claim says SECTIONS is selected whenever
the estimated bounds have aspect ratio above 5.  Concretely: a drawing with
500 entities, not flattened, no `--sections` flag, and estimated bounds
`(0, 100, 0, 10)` (aspect ratio 10 > 5).  The spec rule (`splitModeSpec`)
selects SECTIONS there, but `main` selects the GRID (hybrid) path — the code
never consults the bounds when choosing the mode. -/
theorem C1_split_mode_cex :
    mainSplitMode false false 500 = SplitMode.grid ∧
    splitModeSpec ⟨0, 100, 0, 10⟩ = SplitMode.sections ∧
    ((0 : ℚ) < (10 : ℚ) - 0) ∧ ((100 : ℚ) - 0) / ((10 : ℚ) - 0) > 5 := by
  refine ⟨rfl, ?_, by norm_num, by norm_num⟩
  unfold splitModeSpec
  norm_num

/-- Claim C1, amended: the split mode between SECTIONS and GRID is decided
with no reference to the bounds at all — `main` selects SECTIONS exactly when
the `--sections` flag is passed, or the drawing is flattened and has more
than 100000 entities; otherwise it selects GRID. -/
theorem C1_split_mode_amended (f fl : Bool) (t : ℕ) :
    mainSplitMode f fl t = SplitMode.sections ↔
      (f = true ∨ (fl = true ∧ 100000 < t)) := by
  unfold mainSplitMode useSections
  cases f <;> cases fl <;> by_cases h : 100000 < t <;> simp [h]

/-- Claim C4, counterexample.  `demoMsp` (100 lines, one INSERT of a point
and a circle) is classified as flattened by `detect_flattened_dxf`, yet the
INSERT's block content is expanded: its point `(5, 7)` reaches the point
cloud (it cannot come from the lines) and its circle reaches the primitive
batch.  Geometry collection never skips block expansion. -/
theorem C4_flattened_expansion_cex :
    detect_flattened_dxf demoCounts ["0"] = true ∧
    demoMsp.countP (fun e => e.dxftype == "LINE") = 100 ∧
    demoMsp.countP (fun e => e.dxftype == "INSERT") = 1 ∧
    (5, 7) ∈ collect_all_points demoMsp ∧
    (5, 7) ∉ collect_all_points (List.replicate 100 (Entity.line 0 0 1 1)) ∧
    ((5 : ℚ), (7 : ℚ), (2 : ℚ)) ∈ (collect_geometry_batch demoMsp none).circles := by
  refine ⟨?_, ?_, ?_, ?_, ?_, ?_⟩
  · have hi : insertShare demoCounts = 1 / 101 := by
      simp [insertShare, totalCount, lookupCount, demoCounts, List.lookup]
    have htx : textShare demoCounts = 0 := by
      simp [textShare, totalCount, lookupCount, demoCounts, List.lookup]
    have hg : geometryShare demoCounts = 100 / 101 := by
      simp [geometryShare, geometryTypes, totalCount, lookupCount, demoCounts,
        List.lookup]
    simp only [detect_flattened_dxf, hi, htx, hg, meaningfulLayers]
    norm_num
  · simp [demoMsp, List.countP_append, List.countP_replicate, List.countP_cons,
      Entity.dxftype]
  · simp [demoMsp, List.countP_append, List.countP_replicate, List.countP_cons,
      Entity.dxftype]
  · simp only [demoMsp, collect_all_points_append]
    apply List.mem_append_right
    simp [collect_all_points, demoSub, collectPointsOf]
  · intro h
    simp only [collect_all_points, List.mem_flatMap] at h
    obtain ⟨e, he, hpt⟩ := h
    rw [List.mem_replicate] at he
    obtain ⟨-, rfl⟩ := he
    norm_num [collectPointsOf, Prod.ext_iff] at hpt
  · simp only [demoMsp, collect_geometry_batch]
    rw [List.flatMap_append]
    apply List.mem_append_right
    simp [topCircles, demoSub, entityCircles]

/-- Claim C4, amended: block expansion is unconditional.  `collect_all_points`
and `collect_geometry_batch` take no flattened flag, and an INSERT appended
to any entity stream always contributes its expanded (`virtual_entities`)
sub-entities — to the point cloud (one level) and to the primitive batch
(nested inserts one further level, via `topSegs`/`topCircles`). -/
theorem C4_flattened_expansion_amended :
    (∀ (pre : List Entity) (name : String) (pos : ℚ × ℚ) (sub : List Entity),
        collect_all_points (pre ++ [Entity.insert name pos sub]) =
          collect_all_points pre ++ sub.flatMap collectPointsOf) ∧
    (∀ (pre : List Entity) (name : String) (pos : ℚ × ℚ) (sub : List Entity)
        (ob : Option Bounds),
        (collect_geometry_batch (pre ++ [Entity.insert name pos sub]) ob).lines_x =
          (collect_geometry_batch pre ob).lines_x ++
            (topSegs ob (Entity.insert name pos sub)).map (Option.map Prod.fst) ∧
        (collect_geometry_batch (pre ++ [Entity.insert name pos sub]) ob).circles =
          (collect_geometry_batch pre ob).circles ++
            topCircles ob (Entity.insert name pos sub)) := by
  constructor
  · intro pre name pos sub
    unfold collect_all_points
    rw [List.flatMap_append]
    simp
  · intro pre name pos sub ob
    unfold collect_geometry_batch
    constructor <;> simp [List.flatMap_append]

/-- Claim C2, counterexample.  For `numZones = 9`, `overlapPercent = 1/10`
over the square bounds `(0, 3, 0, 3)` the grid is 3×3 with cell width 1, and
the strip shared by the two horizontally adjacent zones `(0,0)` and `(0,1)`
has width `1/5 = 2 × overlapPercent × cellWidth` — not within 1% of
`overlapPercent × cellWidth = 1/10` as claimed (each zone is grown by the
overlap margin on *both* sides of the shared cell edge). -/
theorem C2_zone_overlap_cex :
    (calculate_zones_with_overlap ⟨0, 3, 0, 3⟩ 9 (1 / 10)).length = 9 ∧
    zoneAt ⟨0, 3, 0, 3⟩ 9 (1 / 10) 0 0 ∈ calculate_zones_with_overlap ⟨0, 3, 0, 3⟩ 9 (1 / 10) ∧
    zoneAt ⟨0, 3, 0, 3⟩ 9 (1 / 10) 0 1 ∈ calculate_zones_with_overlap ⟨0, 3, 0, 3⟩ 9 (1 / 10) ∧
    zoneWidth ⟨0, 3, 0, 3⟩ 9 = 1 ∧
    min (zoneAt ⟨0, 3, 0, 3⟩ 9 (1 / 10) 0 0).xmax (zoneAt ⟨0, 3, 0, 3⟩ 9 (1 / 10) 0 1).xmax -
      max (zoneAt ⟨0, 3, 0, 3⟩ 9 (1 / 10) 0 0).xmin (zoneAt ⟨0, 3, 0, 3⟩ 9 (1 / 10) 0 1).xmin
      = 1 / 5 ∧
    ¬ |(1 / 5 : ℚ) - 1 / 10 * 1| ≤ 1 / 100 * (1 / 10 * 1) := by
  have hcols := zoneCols_sq3
  have hrows := zoneRows_sq3
  have hzw : zoneWidth ⟨0, 3, 0, 3⟩ 9 = 1 := by
    norm_num [zoneWidth, hcols]
  have hzh : zoneHeight ⟨0, 3, 0, 3⟩ 9 = 1 := by
    norm_num [zoneHeight, hrows]
  refine ⟨?_, ?_, ?_, hzw, ?_, by rw [abs_of_pos (by norm_num)]; norm_num⟩
  · simp only [calculate_zones_with_overlap]
    rw [if_neg (by norm_num)]
    simp [hrows, hcols, List.range_succ]
  · exact zoneAt_mem (by norm_num) (by norm_num) (by rw [hrows]; norm_num)
      (by rw [hcols]; norm_num)
  · exact zoneAt_mem (by norm_num) (by norm_num) (by rw [hrows]; norm_num)
      (by rw [hcols]; norm_num)
  · have e1 : (zoneAt ⟨0, 3, 0, 3⟩ 9 (1 / 10) 0 0).xmax = 11 / 10 := by
      norm_num [zoneAt, hzw, min_def]
    have e2 : (zoneAt ⟨0, 3, 0, 3⟩ 9 (1 / 10) 0 1).xmax = 21 / 10 := by
      norm_num [zoneAt, hzw, min_def]
    have e3 : (zoneAt ⟨0, 3, 0, 3⟩ 9 (1 / 10) 0 0).xmin = -(1 / 10) := by
      norm_num [zoneAt, hzw, max_def]
    have e4 : (zoneAt ⟨0, 3, 0, 3⟩ 9 (1 / 10) 0 1).xmin = 9 / 10 := by
      norm_num [zoneAt, hzw, max_def]
    rw [e1, e2, e3, e4]
    norm_num [min_def, max_def]

/-- Claim C2, amended: over non-degenerate bounds and a nonnegative overlap
fraction, every pair of horizontally adjacent zones of the grid shares a
strip of width exactly `2 × overlapPercent × zoneWidth`, and every pair of
vertically adjacent zones one of width exactly `2 × overlapPercent ×
zoneHeight` (twice the claimed value, since both neighbours extend past the
shared cell edge by one overlap margin each). -/
theorem C2_zone_overlap_amended (b : Bounds) (nz : ℕ) (op : ℚ)
    (hw : 0 < b.xmax - b.xmin) (hh : 0 < b.ymax - b.ymin)
    (r c : ℕ) :
    (r < zoneRows b nz → c + 1 < zoneCols b nz →
      zoneAt b nz op r c ∈ calculate_zones_with_overlap b nz op ∧
      zoneAt b nz op r (c + 1) ∈ calculate_zones_with_overlap b nz op ∧
      min (zoneAt b nz op r c).xmax (zoneAt b nz op r (c + 1)).xmax -
        max (zoneAt b nz op r c).xmin (zoneAt b nz op r (c + 1)).xmin =
          2 * op * zoneWidth b nz) ∧
    (r + 1 < zoneRows b nz → c < zoneCols b nz →
      zoneAt b nz op r c ∈ calculate_zones_with_overlap b nz op ∧
      zoneAt b nz op (r + 1) c ∈ calculate_zones_with_overlap b nz op ∧
      min (zoneAt b nz op r c).ymax (zoneAt b nz op (r + 1) c).ymax -
        max (zoneAt b nz op r c).ymin (zoneAt b nz op (r + 1) c).ymin =
          2 * op * zoneHeight b nz) := by
  have hzw := zoneWidth_pos nz hw
  have hzh := zoneHeight_pos nz hh
  have hwidth := zoneCols_mul_width b nz
  have hheight := zoneRows_mul_height b nz
  constructor
  · intro hr hc
    have hc0 : c < zoneCols b nz := Nat.lt_of_succ_lt hc
    refine ⟨zoneAt_mem hw hh hr hc0, zoneAt_mem hw hh hr hc, ?_⟩
    have hcQ : ((c : ℚ) + 1) ≤ ((zoneCols b nz : ℕ) : ℚ) := by
      have h1 : ((c + 1 : ℕ) : ℚ) ≤ ((zoneCols b nz : ℕ) : ℚ) :=
        Nat.cast_le.mpr (Nat.le_of_lt hc)
      push_cast at h1
      linarith
    have hc1zw : ((c : ℚ) + 1) * zoneWidth b nz ≤ b.xmax - b.xmin := by
      rw [← hwidth]
      exact mul_le_mul_of_nonneg_right hcQ hzw.le
    have hc1nn : 0 ≤ ((c : ℚ) + 1) * zoneWidth b nz := by positivity
    have e1 : (zoneAt b nz op r c).xmax =
        b.xmin + ((c : ℚ) + 1) * zoneWidth b nz + zoneWidth b nz * op := by
      simp only [zoneAt]
      exact min_eq_left (by linarith)
    have e2 : (zoneAt b nz op r (c + 1)).xmin =
        b.xmin + ((c : ℚ) + 1) * zoneWidth b nz - zoneWidth b nz * op := by
      simp only [zoneAt]
      push_cast
      exact max_eq_left (by linarith)
    have e3 : (zoneAt b nz op r c).xmax ≤ (zoneAt b nz op r (c + 1)).xmax := by
      rw [e1]
      simp only [zoneAt]
      push_cast
      apply le_min
      · nlinarith
      · linarith
    have e4 : (zoneAt b nz op r c).xmin ≤ (zoneAt b nz op r (c + 1)).xmin := by
      rw [e2]
      simp only [zoneAt]
      apply max_le
      · nlinarith
      · linarith
    rw [min_eq_left e3, max_eq_right e4, e1, e2]
    ring
  · intro hr hc
    have hr0 : r < zoneRows b nz := Nat.lt_of_succ_lt hr
    refine ⟨zoneAt_mem hw hh hr0 hc, zoneAt_mem hw hh hr hc, ?_⟩
    have hrQ : ((r : ℚ) + 1) ≤ ((zoneRows b nz : ℕ) : ℚ) := by
      have h1 : ((r + 1 : ℕ) : ℚ) ≤ ((zoneRows b nz : ℕ) : ℚ) :=
        Nat.cast_le.mpr (Nat.le_of_lt hr)
      push_cast at h1
      linarith
    have hr1zh : ((r : ℚ) + 1) * zoneHeight b nz ≤ b.ymax - b.ymin := by
      rw [← hheight]
      exact mul_le_mul_of_nonneg_right hrQ hzh.le
    have hr1nn : 0 ≤ ((r : ℚ) + 1) * zoneHeight b nz := by positivity
    have e1 : (zoneAt b nz op r c).ymax =
        b.ymin + ((r : ℚ) + 1) * zoneHeight b nz + zoneHeight b nz * op := by
      simp only [zoneAt]
      exact min_eq_left (by linarith)
    have e2 : (zoneAt b nz op (r + 1) c).ymin =
        b.ymin + ((r : ℚ) + 1) * zoneHeight b nz - zoneHeight b nz * op := by
      simp only [zoneAt]
      push_cast
      exact max_eq_left (by linarith)
    have e3 : (zoneAt b nz op r c).ymax ≤ (zoneAt b nz op (r + 1) c).ymax := by
      rw [e1]
      simp only [zoneAt]
      push_cast
      apply le_min
      · nlinarith
      · linarith
    have e4 : (zoneAt b nz op r c).ymin ≤ (zoneAt b nz op (r + 1) c).ymin := by
      rw [e2]
      simp only [zoneAt]
      apply max_le
      · nlinarith
      · linarith
    rw [min_eq_left e3, max_eq_right e4, e1, e2]
    ring

/-- Claim C2, amended, witness: the 3×3 grid over square bounds `(0, 3, 0, 3)`
with `overlapPercent = 1/10`, at the adjacent pair `(0,0)`–`(0,1)`. -/
theorem C2_zone_overlap_amended_witness :
    zoneAt ⟨0, 3, 0, 3⟩ 9 (1 / 10) 0 0 ∈ calculate_zones_with_overlap ⟨0, 3, 0, 3⟩ 9 (1 / 10) ∧
    zoneAt ⟨0, 3, 0, 3⟩ 9 (1 / 10) 0 1 ∈ calculate_zones_with_overlap ⟨0, 3, 0, 3⟩ 9 (1 / 10) ∧
    min (zoneAt ⟨0, 3, 0, 3⟩ 9 (1 / 10) 0 0).xmax (zoneAt ⟨0, 3, 0, 3⟩ 9 (1 / 10) 0 1).xmax -
      max (zoneAt ⟨0, 3, 0, 3⟩ 9 (1 / 10) 0 0).xmin (zoneAt ⟨0, 3, 0, 3⟩ 9 (1 / 10) 0 1).xmin =
        2 * (1 / 10) * zoneWidth ⟨0, 3, 0, 3⟩ 9 :=
  (C2_zone_overlap_amended ⟨0, 3, 0, 3⟩ 9 (1 / 10) (by norm_num) (by norm_num) 0 0).1
    (by rw [zoneRows_sq3]; norm_num)
    (by rw [zoneCols_sq3]; norm_num)

/-- Claim C3, counterexample.  For the point cloud with X coordinates
`[0, 100]` the detector returns no sections (2 < 1000 points), and the
fallback section is `(1, 99)` — the 1st and 99th percentiles — not the full
X range `(0, 100)` from the true minimum to the true maximum. -/
theorem C3_fallback_cex :
    detect_sections_by_x_histogram [0, 100] (1 / 10) 1000 = [] ∧
    sectionsWithFallback [0, 100] = [(1, 99)] ∧
    listMin [0, 100] = 0 ∧ listMax [0, 100] = 100 ∧
    ((1 : ℚ), (99 : ℚ)) ≠ ((0 : ℚ), (100 : ℚ)) := by
  have hdet : detect_sections_by_x_histogram [0, 100] (1 / 10) 1000 = [] := by
    simp [detect_sections_by_x_histogram]
  have hp1 : percentile [0, 100] 1 = 1 := by
    have hf : ⌊(1 : ℚ) / 100⌋ = 0 := by
      rw [Int.floor_eq_iff] <;> norm_num
    have hc : ⌈(1 : ℚ) / 100⌉ = 1 := by
      rw [Int.ceil_eq_iff] <;> norm_num
    simp [percentile, sortQ, List.insertionSort, List.orderedInsert, interpAt]
    norm_num [hf, hc]
  have hp99 : percentile [0, 100] 99 = 99 := by
    have hf : ⌊(99 : ℚ) / 100⌋ = 0 := by
      rw [Int.floor_eq_iff] <;> norm_num
    have hc : ⌈(99 : ℚ) / 100⌉ = 1 := by
      rw [Int.ceil_eq_iff] <;> norm_num
    simp [percentile, sortQ, List.insertionSort, List.orderedInsert, interpAt]
    norm_num [hf, hc]
  refine ⟨hdet, ?_, by norm_num [listMin], by norm_num [listMax], by norm_num⟩
  simp only [sectionsWithFallback, hdet]
  simp [hp1, hp99]

/-- Claim C3, amended: whenever section detection yields zero sections for a
non-empty point cloud, the pipeline falls back to exactly one section — but
it spans the 1st to the 99th percentile of the collected X coordinates (a
sub-range of the full X range), not the true minimum to the true maximum. -/
theorem C3_fallback_amended (xs : List ℚ) (hne : xs ≠ [])
    (hdet : detect_sections_by_x_histogram xs (1 / 10) 1000 = []) :
    sectionsWithFallback xs = [(percentile xs 1, percentile xs 99)] ∧
    listMin xs ≤ percentile xs 1 ∧
    percentile xs 1 ≤ percentile xs 99 ∧
    percentile xs 99 ≤ listMax xs := by
  refine ⟨?_, ?_, ?_, ?_⟩
  · simp only [sectionsWithFallback, hdet]
    simp
  · exact (percentile_between xs hne (by norm_num) (by norm_num)).1
  · exact percentile_mono xs hne (by norm_num) (by norm_num) (by norm_num)
  · exact (percentile_between xs hne (by norm_num) (by norm_num)).2

/-- Claim C3, amended, witness: the fallback at `X = [0, 100]`. -/
theorem C3_fallback_amended_witness :
    sectionsWithFallback [0, 100] = [(percentile [0, 100] 1, percentile [0, 100] 99)] ∧
    listMin [0, 100] ≤ percentile [0, 100] 1 ∧
    percentile [0, 100] 1 ≤ percentile [0, 100] 99 ∧
    percentile [0, 100] 99 ≤ listMax [0, 100] :=
  C3_fallback_amended [0, 100] (by simp)
    (by simp [detect_sections_by_x_histogram])

/-- Claim C5: for an empty point set (no X or no Y coordinates collected),
`calculate_smart_bounds` returns exactly the fixed default bounds
`(0, 100, 0, 100)`, with no margin added, for every margin value. -/
theorem C5_empty_default (xs ys : List ℚ) (margin : ℚ)
    (h : xs.length = 0 ∨ ys.length = 0) :
    calculate_smart_bounds xs ys margin = ⟨0, 100, 0, 100⟩ := by
  unfold calculate_smart_bounds
  rw [if_pos h]

/-- Claim C5, witness: both coordinate lists empty. -/
theorem C5_empty_default_witness :
    calculate_smart_bounds [] [] (1 / 10) = ⟨0, 100, 0, 100⟩ :=
  C5_empty_default [] [] (1 / 10) (Or.inl rfl)

/-- Claim C6: for every input with at least two distinct X values and two
distinct Y values, `calculate_smart_bounds` returns `xmin < xmax` and
`ymin < ymax`; each axis is padded by `max(candidateSpan × margin, 1)` —
the margin ratio times the candidate span, never less than one unit. -/
theorem C6_smart_bounds (xs ys : List ℚ) (margin : ℚ)
    (hx : ∃ a ∈ xs, ∃ b ∈ xs, a ≠ b) (hy : ∃ a ∈ ys, ∃ b ∈ ys, a ≠ b) :
    (calculate_smart_bounds xs ys margin).xmin < (calculate_smart_bounds xs ys margin).xmax ∧
    (calculate_smart_bounds xs ys margin).ymin < (calculate_smart_bounds xs ys margin).ymax ∧
    (calculate_smart_bounds xs ys margin).xmin =
      (axisCandidates xs).1 - max (((axisCandidates xs).2 - (axisCandidates xs).1) * margin) 1 ∧
    (calculate_smart_bounds xs ys margin).xmax =
      (axisCandidates xs).2 + max (((axisCandidates xs).2 - (axisCandidates xs).1) * margin) 1 ∧
    (calculate_smart_bounds xs ys margin).ymin =
      (axisCandidates ys).1 - max (((axisCandidates ys).2 - (axisCandidates ys).1) * margin) 1 ∧
    (calculate_smart_bounds xs ys margin).ymax =
      (axisCandidates ys).2 + max (((axisCandidates ys).2 - (axisCandidates ys).1) * margin) 1 ∧
    1 ≤ max (((axisCandidates xs).2 - (axisCandidates xs).1) * margin) 1 ∧
    1 ≤ max (((axisCandidates ys).2 - (axisCandidates ys).1) * margin) 1 := by
  obtain ⟨a, ha, _⟩ := hx
  obtain ⟨a', ha', _⟩ := hy
  have hxne : xs ≠ [] := List.ne_nil_of_mem ha
  have hyne : ys ≠ [] := List.ne_nil_of_mem ha'
  have hcx := axisCandidates_le xs hxne
  have hcy := axisCandidates_le ys hyne
  have hcond : ¬(xs.length = 0 ∨ ys.length = 0) := by
    push_neg
    exact ⟨fun h => hxne (List.length_eq_zero.mp h),
      fun h => hyne (List.length_eq_zero.mp h)⟩
  have hpadx := le_max_right (((axisCandidates xs).2 - (axisCandidates xs).1) * margin) 1
  have hpady := le_max_right (((axisCandidates ys).2 - (axisCandidates ys).1) * margin) 1
  simp only [calculate_smart_bounds]
  rw [if_neg hcond]
  refine ⟨by dsimp only; linarith, by dsimp only; linarith, rfl, rfl, rfl, rfl,
    hpadx, hpady⟩

/-- Claim C6, witness: `X = [0, 10]`, `Y = [0, 5]`, margin `1/10`. -/
theorem C6_smart_bounds_witness :
    (calculate_smart_bounds [0, 10] [0, 5] (1 / 10)).xmin <
      (calculate_smart_bounds [0, 10] [0, 5] (1 / 10)).xmax ∧
    (calculate_smart_bounds [0, 10] [0, 5] (1 / 10)).ymin <
      (calculate_smart_bounds [0, 10] [0, 5] (1 / 10)).ymax :=
  ⟨(C6_smart_bounds [0, 10] [0, 5] (1 / 10)
      ⟨0, by simp, 10, by simp, by norm_num⟩
      ⟨0, by simp, 5, by simp, by norm_num⟩).1,
   (C6_smart_bounds [0, 10] [0, 5] (1 / 10)
      ⟨0, by simp, 10, by simp, by norm_num⟩
      ⟨0, by simp, 5, by simp, by norm_num⟩).2.1⟩

/-- Claim C7: the flattened classification is exactly the conjunction of the
four conditions (insert share < 0.01, text share < 0.001, geometry share
> 0.95, fewer than 5 meaningful layers), and the two reference drawings
classify as flattened resp. structured. -/
theorem C7_flattened_rule :
    (∀ counts layers,
        detect_flattened_dxf counts layers = true ↔
          (insertShare counts < 1 / 100 ∧ textShare counts < 1 / 1000 ∧
            geometryShare counts > 95 / 100 ∧ (meaningfulLayers layers).length < 5)) ∧
    detect_flattened_dxf [("LINE", 9500), ("LWPOLYLINE", 400), ("INSERT", 0), ("TEXT", 0)]
      ["0"] = true ∧
    detect_flattened_dxf [("LINE", 700), ("INSERT", 200), ("TEXT", 100)]
      ["A", "B", "C", "D", "E", "F"] = false := by
  refine ⟨?_, ?_, ?_⟩
  · intro counts layers
    simp [detect_flattened_dxf, and_assoc]
  · have hi : insertShare [("LINE", 9500), ("LWPOLYLINE", 400), ("INSERT", 0), ("TEXT", 0)]
        = 0 := by
      simp [insertShare, totalCount, lookupCount, List.lookup]
    have htx : textShare [("LINE", 9500), ("LWPOLYLINE", 400), ("INSERT", 0), ("TEXT", 0)]
        = 0 := by
      simp [textShare, totalCount, lookupCount, List.lookup]
    have hg : geometryShare [("LINE", 9500), ("LWPOLYLINE", 400), ("INSERT", 0), ("TEXT", 0)]
        = 1 := by
      simp [geometryShare, geometryTypes, totalCount, lookupCount, List.lookup]
    simp only [detect_flattened_dxf, hi, htx, hg, meaningfulLayers]
    norm_num
  · have hi : insertShare [("LINE", 700), ("INSERT", 200), ("TEXT", 100)] = 1 / 5 := by
      simp [insertShare, totalCount, lookupCount, List.lookup]
      norm_num
    simp only [detect_flattened_dxf, hi]
    norm_num

/-- Claim C8: for a transformer built from any world bounds and (natural)
image size, `world_to_pixel` is monotone nondecreasing in world X at fixed Y,
and monotone nonincreasing in world Y at fixed X. -/
theorem C8_world_to_pixel_monotone (wb : Bounds) (w h : ℕ) (x1 x2 y1 y2 : ℚ)
    (hx : x1 ≤ x2) (hy : y1 ≤ y2) :
    ((CoordinateTransformer.ofBounds wb w h).world_to_pixel x1 y1).1 ≤
      ((CoordinateTransformer.ofBounds wb w h).world_to_pixel x2 y1).1 ∧
    ((CoordinateTransformer.ofBounds wb w h).world_to_pixel x1 y2).2 ≤
      ((CoordinateTransformer.ofBounds wb w h).world_to_pixel x1 y1).2 := by
  have hsx : 0 ≤ (CoordinateTransformer.ofBounds wb w h).scale_x := by
    simp only [CoordinateTransformer.ofBounds]
    split
    · positivity
    · norm_num
  have hsy : 0 ≤ (CoordinateTransformer.ofBounds wb w h).scale_y := by
    simp only [CoordinateTransformer.ofBounds]
    split
    · positivity
    · norm_num
  constructor
  · apply truncQ_mono
    apply mul_le_mul_of_nonneg_right _ hsx
    linarith
  · apply truncQ_mono
    have h1 := mul_le_mul_of_nonneg_right
      (sub_le_sub_right hy (CoordinateTransformer.ofBounds wb w h).world_ymin) hsy
    linarith

/-- Claim C8, witness: the transformer over `(0, 10, 0, 10)` with a 100×100
image, at `x = 1 ≤ 3` and `y = 2 ≤ 5`. -/
theorem C8_world_to_pixel_monotone_witness :
    ((CoordinateTransformer.ofBounds ⟨0, 10, 0, 10⟩ 100 100).world_to_pixel 1 2).1 ≤
      ((CoordinateTransformer.ofBounds ⟨0, 10, 0, 10⟩ 100 100).world_to_pixel 3 2).1 ∧
    ((CoordinateTransformer.ofBounds ⟨0, 10, 0, 10⟩ 100 100).world_to_pixel 1 5).2 ≤
      ((CoordinateTransformer.ofBounds ⟨0, 10, 0, 10⟩ 100 100).world_to_pixel 1 2).2 :=
  C8_world_to_pixel_monotone ⟨0, 10, 0, 10⟩ 100 100 1 3 2 5 (by norm_num) (by norm_num)

/-- Claim C9: zone entity extraction uses inclusive containment of the anchor
position — a TEXT entity whose position lies (inclusively) in two zones is
emitted in both zones' outputs, each record carrying that zone's own
transformer's pixel projection; and every emitted record's world position
lies inside the zone (entities outside are silently excluded). -/
theorem C9_extract_inclusive (msp : List Entity) (z1 z2 : Bounds)
    (t1 t2 : CoordinateTransformer) (pos : ℚ × ℚ) (s : String) (ht : ℚ)
    (hm : Entity.text pos s ht ∈ msp) (h1 : inZone z1 pos) (h2 : inZone z2 pos) :
    (⟨"TEXT", safe_text s, pos, t1.world_to_pixel pos.1 pos.2, some ht⟩ : AnnRecord) ∈
      extract_zone_entities msp z1 t1 ∧
    (⟨"TEXT", safe_text s, pos, t2.world_to_pixel pos.1 pos.2, some ht⟩ : AnnRecord) ∈
      extract_zone_entities msp z2 t2 ∧
    (∀ zb t, ∀ r ∈ extract_zone_entities msp zb t, inZone zb r.world_pos) := by
  refine ⟨?_, ?_, ?_⟩
  · unfold extract_zone_entities
    rw [List.mem_filterMap]
    exact ⟨Entity.text pos s ht, hm, by simp [recordOf, h1]⟩
  · unfold extract_zone_entities
    rw [List.mem_filterMap]
    exact ⟨Entity.text pos s ht, hm, by simp [recordOf, h2]⟩
  · intro zb t r hr
    unfold extract_zone_entities at hr
    rw [List.mem_filterMap] at hr
    obtain ⟨e, _, hfe⟩ := hr
    cases e with
    | text p s' h' =>
        rw [recordOf] at hfe
        by_cases hin : inZone zb p
        · rw [if_pos hin] at hfe
          obtain rfl := Option.some.inj hfe
          exact hin
        · rw [if_neg hin] at hfe
          cases hfe
    | mtext p s' =>
        rw [recordOf] at hfe
        by_cases hin : inZone zb p
        · rw [if_pos hin] at hfe
          obtain rfl := Option.some.inj hfe
          exact hin
        · rw [if_neg hin] at hfe
          cases hfe
    | insert n p sub =>
        rw [recordOf] at hfe
        by_cases hin : inZone zb p
        · rw [if_pos hin] at hfe
          obtain rfl := Option.some.inj hfe
          exact hin
        · rw [if_neg hin] at hfe
          cases hfe
    | line x1 y1 x2 y2 => simp [recordOf] at hfe
    | lwpolyline pts closed => simp [recordOf] at hfe
    | polyline pts => simp [recordOf] at hfe
    | circle cx cy rr => simp [recordOf] at hfe
    | arc cx cy rr sa ea => simp [recordOf] at hfe
    | point x y => simp [recordOf] at hfe
    | ellipse cx cy => simp [recordOf] at hfe
    | spline pts => simp [recordOf] at hfe

/-- Claim C9, witness: a TEXT entity at `(1, 1)`, exactly on the shared edge
`x = 1` of the overlapping zones `(0, 1, 0, 2)` and `(1, 2, 0, 2)`, appears
in both zones' outputs with each zone's own transformer applied, and the two
pixel positions differ. -/
theorem C9_extract_inclusive_witness :
    (⟨"TEXT", safe_text ("A"), (1, 1),
        (CoordinateTransformer.ofBounds ⟨0, 1, 0, 2⟩ 10 20).world_to_pixel 1 1,
        some 2⟩ : AnnRecord) ∈
      extract_zone_entities [Entity.text (1, 1) ("A") 2] ⟨0, 1, 0, 2⟩
        (CoordinateTransformer.ofBounds ⟨0, 1, 0, 2⟩ 10 20) ∧
    (⟨"TEXT", safe_text ("A"), (1, 1),
        (CoordinateTransformer.ofBounds ⟨1, 2, 0, 2⟩ 100 200).world_to_pixel 1 1,
        some 2⟩ : AnnRecord) ∈
      extract_zone_entities [Entity.text (1, 1) ("A") 2] ⟨1, 2, 0, 2⟩
        (CoordinateTransformer.ofBounds ⟨1, 2, 0, 2⟩ 100 200) :=
  ⟨(C9_extract_inclusive [Entity.text (1, 1) ("A") 2] ⟨0, 1, 0, 2⟩ ⟨1, 2, 0, 2⟩
      (CoordinateTransformer.ofBounds ⟨0, 1, 0, 2⟩ 10 20)
      (CoordinateTransformer.ofBounds ⟨1, 2, 0, 2⟩ 100 200) (1, 1) ("A") 2
      (by simp) (by norm_num [inZone]) (by norm_num [inZone])).1,
   (C9_extract_inclusive [Entity.text (1, 1) ("A") 2] ⟨0, 1, 0, 2⟩ ⟨1, 2, 0, 2⟩
      (CoordinateTransformer.ofBounds ⟨0, 1, 0, 2⟩ 10 20)
      (CoordinateTransformer.ofBounds ⟨1, 2, 0, 2⟩ 100 200) (1, 1) ("A") 2
      (by simp) (by norm_num [inZone]) (by norm_num [inZone])).2.1⟩

/-- Claim C10 (implicit): with fewer than `min_points_per_section` X
coordinates (default 1000) the section detector returns `[]` from its first
guard, without inspecting the distribution, so the pipeline always takes the
single-section fallback for such inputs. -/
theorem C10_min_points_guard (xs : List ℚ) (gap_frac : ℚ) (mp : ℕ)
    (h : xs.length < mp) :
    detect_sections_by_x_histogram xs gap_frac mp = [] ∧
    (xs.length < 1000 →
      sectionsWithFallback xs = [(percentile xs 1, percentile xs 99)]) := by
  constructor
  · unfold detect_sections_by_x_histogram
    rw [if_pos h]
  · intro h1000
    have hdet : detect_sections_by_x_histogram xs (1 / 10) 1000 = [] := by
      unfold detect_sections_by_x_histogram
      rw [if_pos h1000]
    simp only [sectionsWithFallback, hdet]
    simp

/-- Claim C10, witness: two points (clusters at 0 and 100, well separated)
still yield no sections and force the fallback. -/
theorem C10_min_points_guard_witness :
    detect_sections_by_x_histogram [0, 100] (1 / 10) 1000 = [] ∧
    sectionsWithFallback [0, 100] = [(percentile [0, 100] 1, percentile [0, 100] 99)] :=
  ⟨(C10_min_points_guard [0, 100] (1 / 10) 1000 (by norm_num)).1,
   (C10_min_points_guard [0, 100] (1 / 10) 1000 (by norm_num)).2 (by norm_num)⟩

end AnalyzeDxf
